import Mathlib

/-!
Shallow embedding of the ingestion-normalization-and-analytics engine of
`src/app.py` (Blinkit dashboard).

Modelling conventions:
* A raw spreadsheet sheet is a matrix of cell strings (`RawSheet`); a workbook
  is a named list of sheets.  This follows the spec's design note that schema
  auto-detection is a pure function over a matrix of cell values.
* Calendar dates are integers (day numbers); `pd.to_datetime(...).dt.date`
  normalization is modelled by the records already carrying the date-only value.
* Money and quantities are rationals (`ℚ`).  Floating-point non-finiteness is
  modelled separately by the `PVal` type for the single formula (`Growth %`)
  whose code contains an explicit `replace(0, 1)` / `replace([inf, -inf], 0)`.
* The tolerant parsers `pd.to_datetime(·, errors := coerce)` and
  `pd.to_numeric(·, errors := coerce)` are external collaborators (spec §6);
  the normalizer is parameterized over them as `String → Option _`.
-/

namespace Blinkit

/-- A sheet of raw cell values: rows of cells, no assumed header. -/
abbrev RawSheet := List (List String)

/-- A workbook: sheets with their names, in declaration order. -/
abbrev Workbook := List (String × RawSheet)

/-- Row `i` of a sheet (empty when out of range), as `pandas` yields it. -/
def rowAt (m : RawSheet) (i : Nat) : List String :=
  (m.get? i).getD []

/-- An ASCII whitespace character, as stripped by Python's `str.strip()`. -/
def isWS (c : Char) : Bool :=
  c = ' ' || c = '\t' || c = '\n' || c = '\r'

/-- `str.strip()` / pandas `.str.strip()`: remove leading and trailing
whitespace.  (Implemented by structural recursion over the character list so
that concrete instances evaluate inside the kernel.) -/
def trimStr (s : String) : String :=
  ⟨((s.data.dropWhile isWS).reverse.dropWhile isWS).reverse⟩

/-- `src/app.py` lines 46–52: scan the first 10 rows (`nrows=10`, `iterrows`)
for the first row whose cells, `str.strip`-trimmed, contain both
`Order Date` and `Quantity`. -/
def findSalesHeaderRow (m : RawSheet) : Option Nat :=
  (m.take 10).findIdx? fun row =>
    (row.map trimStr).contains "Order Date" &&
      (row.map trimStr).contains "Quantity"

/-- `src/app.py` lines 43–56 (`load_smart_sales`, header-location stage):
`pd.read_excel(file)` takes row 0 as the header; if `Order Date` is not among
those (untrimmed) columns, the first 10 rows are scanned for a row containing
both required columns (trimmed), the sheet is re-read with that header, and
otherwise the function returns `None`.  The result is the located header row
together with the data rows below it. -/
def load_smart_sales_header (m : RawSheet) : Option (List String × RawSheet) :=
  let first := rowAt m 0
  if first.contains "Order Date" then
    some (first, m.drop 1)
  else
    match findSalesHeaderRow m with
    | some i => some (rowAt m i, m.drop (i + 1))
    | none => none

/-- `src/app.py` lines 79–82: scan the first 10 rows of one sheet for a row
whose trimmed cells contain both `Item Name` and `Total sellable`. -/
def findInvHeaderRow (m : RawSheet) : Option Nat :=
  (m.take 10).findIdx? fun row =>
    (row.map trimStr).contains "Item Name" &&
      (row.map trimStr).contains "Total sellable"

/-- `src/app.py` lines 75–83: the sheet-scanning loop of
`load_smart_inventory`.  State is `(target_sheet, header_row_idx)`; a match
sets both and breaks the inner loop; the outer loop breaks on
`if target_sheet:` — a Python *truthiness* test, so a matching sheet whose
name is the empty string does not break the outer loop. -/
def invScan : Workbook → Option String → Nat → Option String × Nat
  | [], t, h => (t, h)
  | (name, m) :: rest, t, h =>
    match findInvHeaderRow m with
    | some i => if name = "" then invScan rest (some name) i else (some name, i)
    | none => invScan rest t h

/-- `src/app.py` lines 74–87 (`load_smart_inventory`, sheet-location stage):
scan sheets in declaration order; `if not target_sheet: return None` is again
a truthiness test (`None` or the empty sheet name both fail); otherwise the
located sheet is re-read with the located header row. -/
def load_smart_inventory_header (wb : Workbook) : Option (List String × RawSheet) :=
  match invScan wb none 0 with
  | (none, _) => none
  | (some "", _) => none
  | (some name, i) =>
    match wb.find? (fun s => s.1 = name) with
    | some (_, m) => some (rowAt m i, m.drop (i + 1))
    | none => none

/-! ### Record normalization (`src/app.py` lines 58–67)

A `RawSalesRow` is one data row of the located sales table, restricted to the
columns the engine consumes.  `hasQty`/`hasAmt` record whether the `Quantity` /
`Total Gross Bill Amount` column is present in the located header at all
(lines 62–66: an absent column is materialized as the constant 0). -/

structure RawSalesRow where
  orderDateCell : String
  productName : String
  customerState : String
  customerCity : String
  quantityCell : String
  amountCell : String
deriving DecidableEq

/-- A normalized transaction record (spec §3 `TransactionRecord`); the date is
the already-normalized calendar day number. -/
structure SalesRecord where
  orderDate : Int
  productName : String
  customerState : String
  customerCity : String
  quantity : ℚ
  grossAmount : ℚ
deriving DecidableEq

/-- Line 59, `pd.to_datetime(df[..], errors='coerce')`: attach the parsed
date (or `none` for NaT) to every row. -/
def coerceDates (parseDate : String → Option Int) (rows : List RawSalesRow) :
    List (Option Int × RawSalesRow) :=
  rows.map fun r => (parseDate r.orderDateCell, r)

/-- Line 60, `df.dropna(subset=['Order Date'])`: drop every row whose date
failed to parse, keep the rest in order. -/
def dropBadDates (rows : List (Option Int × RawSalesRow)) : List (Int × RawSalesRow) :=
  rows.filterMap fun p => p.1.map fun d => (d, p.2)

/-- Lines 62–66: numeric coercion of `Quantity` and `Total Gross Bill Amount`
with `pd.to_numeric(errors='coerce').fillna(0)` when the column exists, and
the constant 0 when it does not. -/
def coerceNums (parseNum : String → Option ℚ) (hasQty hasAmt : Bool)
    (rows : List (Int × RawSalesRow)) : List SalesRecord :=
  rows.map fun p =>
    { orderDate := p.1
      productName := p.2.productName
      customerState := p.2.customerState
      customerCity := p.2.customerCity
      quantity := if hasQty then (parseNum p.2.quantityCell).getD 0 else 0
      grossAmount := if hasAmt then (parseNum p.2.amountCell).getD 0 else 0 }

/-- `src/app.py` lines 58–67: the full normalization pipeline of
`load_smart_sales` after the header has been located. -/
def normalizeSales (parseDate : String → Option Int) (parseNum : String → Option ℚ)
    (hasQty hasAmt : Bool) (rows : List RawSalesRow) : List SalesRecord :=
  coerceNums parseNum hasQty hasAmt (dropBadDates (coerceDates parseDate rows))

/-! ### Core variables and aggregation (`src/app.py` lines 122–135) -/

/-- Line 122, `df['Order Date'].max().date()`: the maximum calendar date in
the record set (the "last day"). -/
def last_date (records : List SalesRecord) : Int :=
  ((records.map (·.orderDate)).max?).getD 0

/-- Line 123, `df['Order Date'].dt.normalize().nunique()`: the count of
distinct calendar dates present (not calendar span). -/
def num_days (records : List SalesRecord) : Nat :=
  ((records.map (·.orderDate)).dedup).length

/-- Line 124, `df['Total Gross Bill Amount'].sum()`: the period total. -/
def month_total (records : List SalesRecord) : ℚ :=
  (records.map (·.grossAmount)).sum

/-- Line 135, `df[df['Order Date'].dt.date == last_date]`: the subset of
records on the last day. -/
def last_day_df (records : List SalesRecord) : List SalesRecord :=
  records.filter fun r => r.orderDate = last_date records

/-- One row of the per-day series (`daily_totals`, spec §3 `DailyAggregate`). -/
structure DailyRow where
  date : Int
  totalRevenue : ℚ
  totalQuantity : ℚ
deriving DecidableEq

/-- Line 126, `df.groupby(df['Order Date'].dt.date)[[..]].sum()`: one row per
distinct date (groupby sorts keys ascending), summing revenue and quantity. -/
def daily_totals (records : List SalesRecord) : List DailyRow :=
  (((records.map (·.orderDate)).dedup).insertionSort (· ≤ ·)).map fun d =>
    { date := d
      totalRevenue := ((records.filter (·.orderDate = d)).map (·.grossAmount)).sum
      totalQuantity := ((records.filter (·.orderDate = d)).map (·.quantity)).sum }

/-! ### Growth report (`src/app.py` lines 164–179) -/

/-- One row of a group report (spec §3 `GroupAggregate`), indexed by the
grouping key. -/
structure GroupRow where
  key : String
  lastDayRev : ℚ
  dailyAvgRev : ℚ
  totalRev : ℚ
  lastDayQty : ℚ
  dailyAvgQty : ℚ
  totalQty : ℚ
  growth : ℚ
deriving DecidableEq

/-- Sum of `f` over the records of grouping key `k`. -/
def sumBy (sel : SalesRecord → String) (f : SalesRecord → ℚ) (k : String)
    (records : List SalesRecord) : ℚ :=
  ((records.filter fun r => sel r = k).map f).sum

/-- The index of a groupby result: the distinct key values, sorted ascending
(pandas `groupby` sorts group keys). -/
def sortedKeys (sel : SalesRecord → String) (records : List SalesRecord) : List String :=
  ((records.map sel).dedup).insertionSort (· ≤ ·)

/-- Line 177: `(last − avg) / avg.replace(0, 1)` — the growth ratio with the
zero-denominator-substitution rule (spec §4.4).  In `ℚ` there are no
non-finite values, so the subsequent `replace([inf, -inf], 0)` of line 178 is
the identity here; its float-level semantics is treated by `growthFormula`
below. -/
def growthRatio (lastV avgV : ℚ) : ℚ :=
  (lastV - avgV) / (if avgV = 0 then 1 else avgV)

/-- `src/app.py` lines 164–179, `create_growth_report`: per-key sums over the
last day and over the month, daily averages over the overall `num_days`, the
`fillna(0)` alignment (a key with no last-day records gets 0, as summing its
empty fiber), and the `Growth %` column.  The row index is the union of the
last-day keys and the monthly keys, which equals the monthly keys. -/
def create_growth_report (sel : SalesRecord → String) (records : List SalesRecord) :
    List GroupRow :=
  let last := last_day_df records
  let nd : ℚ := (num_days records : ℚ)
  (sortedKeys sel records).map fun k =>
    let lastRev := sumBy sel (·.grossAmount) k last
    let monthRev := sumBy sel (·.grossAmount) k records
    let lastQty := sumBy sel (·.quantity) k last
    let monthQty := sumBy sel (·.quantity) k records
    { key := k
      lastDayRev := lastRev
      dailyAvgRev := monthRev / nd
      totalRev := monthRev
      lastDayQty := lastQty
      dailyAvgQty := monthQty / nd
      totalQty := monthQty
      growth := growthRatio lastRev (monthRev / nd) }

/-! ### Two-stage ranking (`src/app.py` lines 222–224) -/

/-- Line 222, step A: `prod_report.sort_values('Last Day Rev',
ascending=False).head(12)` — top 12 keys by last-day revenue descending. -/
def top_12 (report : List GroupRow) : List GroupRow :=
  (report.insertionSort fun a b => b.lastDayRev ≤ a.lastDayRev).take 12

/-- Line 224, step B: `top_12.sort_values('Growth %',
ascending=False).head(5)` — top 5 of those 12 by growth ratio descending. -/
def top_5_growth (report : List GroupRow) : List GroupRow :=
  ((top_12 report).insertionSort fun a b => b.growth ≤ a.growth).take 5

/-! ### Last-day performers (`src/app.py` lines 312–313) -/

/-- Line 312: `prod_report[(Last Day Rev > Daily Avg Rev) & (Last Day Rev >=
1000)]`. -/
def performers (report : List GroupRow) : List GroupRow :=
  report.filter fun r => decide (r.dailyAvgRev < r.lastDayRev ∧ 1000 ≤ r.lastDayRev)

/-- Line 313: `performers.sort_values('Growth %', ascending=False)`. -/
def performers_sorted (report : List GroupRow) : List GroupRow :=
  (performers report).insertionSort fun a b => b.growth ≤ a.growth

/-! ### Weekly patterns (`src/app.py` lines 320–327) -/

/-- Line 322: the canonical Monday→Sunday order. -/
def days_order : List String :=
  ["Monday", "Tuesday", "Wednesday", "Thursday", "Friday", "Saturday", "Sunday"]

/-- `strftime('%A')` on a day number: weekday names repeat with period 7; the
epoch is chosen so that day 0 is a Monday. -/
def dayName (d : Int) : String :=
  (days_order.get? (d % 7).toNat).getD ""

/-- One row of the `Weekly Patterns` sheet.  `avgRevenue`/`avgQuantity` are
`none` for a weekday with no occurrence in the data (`reindex` produces a NaN
row for it). -/
structure WeeklyRow where
  day : String
  avgRevenue : Option ℚ
  avgQuantity : Option ℚ
  lastDayRev : ℚ
deriving DecidableEq

/-- The mean of a list of rationals, `none` when the list is empty (a
groupby mean has no row for an empty group). -/
def meanList (l : List ℚ) : Option ℚ :=
  if l = [] then none else some (l.sum / (l.length : ℚ))

/-- Lines 320–324: group `daily_totals` by weekday name, take the mean of
revenue and quantity per weekday, reindex into Monday→Sunday order (absent
weekdays become NaN rows), and add the `Last Day Rev` column initialized
to 0.0. -/
def weekly_pre (daily : List DailyRow) : List WeeklyRow :=
  days_order.map fun w =>
    { day := w
      avgRevenue := meanList ((daily.filter fun r => dayName r.date = w).map (·.totalRevenue))
      avgQuantity := meanList ((daily.filter fun r => dayName r.date = w).map (·.totalQuantity))
      lastDayRev := 0 }

/-- Lines 325–326: `if last_day_name in weekly_stats.index:
weekly_stats.at[last_day_name, 'Last Day Rev'] = last_day_rev` — overlay the
literal last-day revenue onto the slot of its weekday. -/
def overlayLast (rows : List WeeklyRow) (lastName : String) (lastRev : ℚ) :
    List WeeklyRow :=
  if (rows.map (·.day)).contains lastName then
    rows.map fun r => if r.day = lastName then { r with lastDayRev := lastRev } else r
  else rows

/-- `src/app.py` lines 320–327: the full `Weekly Patterns` computation. -/
def weekly_stats (daily : List DailyRow) (lastName : String) (lastRev : ℚ) :
    List WeeklyRow :=
  overlayLast (weekly_pre daily) lastName lastRev

/-! ### Period-over-period comparison (`src/app.py` lines 196–209) -/

/-- One row of a comparison table (spec §3 `ComparisonAggregate`). -/
structure CompRow where
  key : String
  prevAvgRev : ℚ
  currAvgRev : ℚ
  revGrowth : ℚ
  prevAvgQty : ℚ
  currAvgQty : ℚ
  qtyGrowth : ℚ
deriving DecidableEq

/-- `src/app.py` lines 197–209, `generate_comparison`: per-key daily averages
of both periods, an outer join on the key (`how='outer'`) followed by
`fillna(0)` — for a key absent from one period the empty fiber sums to 0, so
that side's averages are 0 — then the two growth columns with the
`replace(0, 1)` rule, and a sort by current daily average revenue
descending.  The joined index is the union of both periods' key sets (sorted,
as pandas sorts an outer-merged index). -/
def generate_comparison (sel : SalesRecord → String)
    (prev curr : List SalesRecord) : List CompRow :=
  let ndPrev : ℚ := (num_days prev : ℚ)
  let ndCurr : ℚ := (num_days curr : ℚ)
  let keys := ((prev.map sel ++ curr.map sel).dedup).insertionSort (· ≤ ·)
  (keys.map fun k =>
    let pRev := sumBy sel (·.grossAmount) k prev / ndPrev
    let cRev := sumBy sel (·.grossAmount) k curr / ndCurr
    let pQty := sumBy sel (·.quantity) k prev / ndPrev
    let cQty := sumBy sel (·.quantity) k curr / ndCurr
    { key := k
      prevAvgRev := pRev
      currAvgRev := cRev
      revGrowth := growthRatio cRev pRev
      prevAvgQty := pQty
      currAvgQty := cQty
      qtyGrowth := growthRatio cQty pQty }).insertionSort
    fun a b => b.currAvgRev ≤ a.currAvgRev

/-! ### Float-level growth formula (`src/app.py` lines 177–178)

`PVal` is an IEEE-754-style extended value: a finite rational, `+∞`, `-∞`, or
NaN.  It models the float arithmetic of the single pipeline step whose code
explicitly manipulates non-finite values. -/

inductive PVal where
  | fin : ℚ → PVal
  | pinf : PVal
  | ninf : PVal
  | nan : PVal
deriving DecidableEq

namespace PVal

/-- IEEE-style subtraction on extended values. -/
def sub : PVal → PVal → PVal
  | fin a, fin b => fin (a - b)
  | fin _, pinf => ninf
  | fin _, ninf => pinf
  | pinf, fin _ => pinf
  | ninf, fin _ => ninf
  | pinf, ninf => pinf
  | ninf, pinf => ninf
  | pinf, pinf => nan
  | ninf, ninf => nan
  | nan, _ => nan
  | _, nan => nan

/-- IEEE-style division on extended values (`x / 0` gives a signed infinity
or NaN, `finite / ±∞` gives 0). -/
def div : PVal → PVal → PVal
  | fin a, fin b =>
    if b = 0 then (if a = 0 then nan else if 0 < a then pinf else ninf)
    else fin (a / b)
  | fin _, pinf => fin 0
  | fin _, ninf => fin 0
  | pinf, fin b => if 0 ≤ b then pinf else ninf
  | ninf, fin b => if 0 ≤ b then ninf else pinf
  | pinf, pinf => nan
  | pinf, ninf => nan
  | ninf, pinf => nan
  | ninf, ninf => nan
  | nan, _ => nan
  | _, nan => nan

/-- Line 177, `.replace(0, 1)` on the denominator column. -/
def replaceZeroWithOne (v : PVal) : PVal :=
  if v = fin 0 then fin 1 else v

/-- Line 178, `report.replace([float('inf'), -float('inf')], 0)`: both
infinities are clamped to 0; NaN is untouched by this `replace`. -/
def replaceInfWithZero (v : PVal) : PVal :=
  if v = pinf ∨ v = ninf then fin 0 else v

/-- `v` is a finite value. -/
def isFinite : PVal → Prop
  | fin _ => True
  | _ => False

instance : DecidablePred isFinite := fun v => by
  cases v <;> simp [isFinite] <;> infer_instance

end PVal

/-- `src/app.py` lines 177–178 at float level: the `Growth %` computation
`(last − avg) / avg.replace(0, 1)` followed by the `replace([inf, -inf], 0)`
clamp. -/
def growthFormula (lastV avgV : PVal) : PVal :=
  PVal.replaceInfWithZero ((lastV.sub avgV).div (PVal.replaceZeroWithOne avgV))

/-! ### Grouping-dimension selectors (`src/app.py` lines 181, 190, 191) -/

/-- `create_growth_report('Product Name')`. -/
def byProduct : SalesRecord → String := (·.productName)

/-- `create_growth_report('Customer State')`. -/
def byState : SalesRecord → String := (·.customerState)

/-- `create_growth_report('Customer City')`. -/
def byCity : SalesRecord → String := (·.customerCity)

/-! ### Concrete inputs used by witnesses -/

/-- One product, amount 500 on the last day and −500 on an earlier day, so its
monthly total (hence daily average) is exactly 0 while its last-day revenue
is 500. -/
def ex500records : List SalesRecord :=
  [⟨1, "A", "S", "C", 1, 500⟩, ⟨0, "A", "S", "C", 1, -500⟩]

/-! ## Claims -/

/-- **C1.** For every grouping key in a group report, the growth ratio equals
`(last_period_value - daily_avg_value) / daily_avg_value` except that a
zero `daily_avg_value` is replaced by 1 as the denominator; in particular
`daily_avg_revenue == 0` with `last_period_revenue == 500` yields
`growth_ratio == 500` — never an error, never forced to 0. -/
theorem C1_growth_ratio_rule
    (sel : SalesRecord → String) (records : List SalesRecord) (row : GroupRow)
    (h : row ∈ create_growth_report sel records) :
    row.growth = (row.lastDayRev - row.dailyAvgRev) /
        (if row.dailyAvgRev = 0 then 1 else row.dailyAvgRev) ∧
      growthRatio 500 0 = 500 := by
  constructor
  · simp only [create_growth_report] at h
    obtain ⟨k, hk, rfl⟩ := List.mem_map.1 h
    simp [growthRatio]
  · simp [growthRatio]

/-- Witness for C1: the product of `ex500records` has daily average revenue 0,
last-day revenue 500, and growth ratio 500. -/
theorem C1_growth_ratio_rule_witness :
    (⟨"A", 500, 0, 0, 1, 1, 2, 500⟩ : GroupRow) ∈
        create_growth_report byProduct ex500records ∧
      (⟨"A", 500, 0, 0, 1, 1, 2, 500⟩ : GroupRow).growth =
        ((⟨"A", 500, 0, 0, 1, 1, 2, 500⟩ : GroupRow).lastDayRev -
            (⟨"A", 500, 0, 0, 1, 1, 2, 500⟩ : GroupRow).dailyAvgRev) /
          (if (⟨"A", 500, 0, 0, 1, 1, 2, 500⟩ : GroupRow).dailyAvgRev = 0 then 1
            else (⟨"A", 500, 0, 0, 1, 1, 2, 500⟩ : GroupRow).dailyAvgRev) := by
  have hmem : (⟨"A", 500, 0, 0, 1, 1, 2, 500⟩ : GroupRow) ∈
      create_growth_report byProduct ex500records := by
    norm_num [create_growth_report, sortedKeys, sumBy, last_day_df, last_date,
      num_days, byProduct, growthRatio, ex500records, List.dedup, List.pwFilter,
      List.insertionSort, List.max?]
  exact ⟨hmem, (C1_growth_ratio_rule byProduct ex500records _ hmem).1⟩

/-- **C2.** The 5-entry growth leaderboard is the top 5 by growth ratio of the
top 12 by last-day revenue, so no row (and no key) outside the top-12 set
ever appears on it, even one with the single highest growth ratio overall. -/
theorem C2_two_stage_ranking
    (report : List GroupRow) (row : GroupRow) (h : row ∈ top_5_growth report) :
    row ∈ top_12 report ∧ row ∈ report ∧
      ∀ k ∈ (top_5_growth report).map (·.key), k ∈ (top_12 report).map (·.key) := by
  have h1 : row ∈ top_12 report := by
    have := List.take_subset 5 _ h
    exact (List.mem_insertionSort _).1 this
  refine ⟨h1, ?_, ?_⟩
  · have := List.take_subset 12 _ h1
    exact (List.mem_insertionSort _).1 this
  · intro k hk
    obtain ⟨r, hr, rfl⟩ := List.mem_map.1 hk
    have hr1 : r ∈ top_12 report := by
      have := List.take_subset 5 _ hr
      exact (List.mem_insertionSort _).1 this
    exact List.mem_map_of_mem _ hr1

/-- A group-report row with only the fields relevant to ranking filled in. -/
def mkRow (k : String) (lastRev growth : ℚ) : GroupRow :=
  ⟨k, lastRev, 1, 1, 1, 1, 1, growth⟩

/-- Thirteen products; `M` has the single highest growth ratio (100) but the
lowest last-day revenue, so it is outside the top-12-by-revenue set. -/
def exRankReport : List GroupRow :=
  [mkRow "A" 20 5, mkRow "B" 19 4, mkRow "C" 18 3, mkRow "D" 17 2,
   mkRow "E" 16 1, mkRow "F" 15 0, mkRow "G" 14 0, mkRow "H" 13 0,
   mkRow "I" 12 0, mkRow "J" 11 0, mkRow "K" 10 0, mkRow "L" 9 0,
   mkRow "M" 1 100]

/-- Witness for C2: on `exRankReport` the leaderboard member `A` is inside the
top-12 set, while `M` — the highest growth ratio overall — is not in the
top 12 at all. -/
theorem C2_two_stage_ranking_witness :
    mkRow "A" 20 5 ∈ top_5_growth exRankReport ∧
      (mkRow "A" 20 5 ∈ top_12 exRankReport ∧ mkRow "A" 20 5 ∈ exRankReport ∧
        ∀ k ∈ (top_5_growth exRankReport).map (·.key),
          k ∈ (top_12 exRankReport).map (·.key)) ∧
      mkRow "M" 1 100 ∉ top_12 exRankReport := by
  have hmem : mkRow "A" 20 5 ∈ top_5_growth exRankReport := by
    norm_num [top_5_growth, top_12, exRankReport, mkRow, List.insertionSort,
      List.orderedInsert]
  refine ⟨hmem, C2_two_stage_ranking exRankReport _ hmem, ?_⟩
  norm_num [top_12, exRankReport, mkRow, List.insertionSort, List.orderedInsert]

/-! ### Helper lemmas: summing over fibers of a grouping -/

theorem sum_map_add (f g : Int → ℚ) (ds : List Int) :
    (ds.map fun d => f d + g d).sum = (ds.map f).sum + (ds.map g).sum := by
  induction ds with
  | nil => simp
  | cons a t ih => simp [ih]; ring

theorem sum_ite_of_notMem (x : Int) (c : ℚ) (ds : List Int) (hx : x ∉ ds) :
    (ds.map fun d => if x = d then c else 0).sum = 0 := by
  induction ds with
  | nil => simp
  | cons a t ih =>
    simp only [List.mem_cons, not_or] at hx
    simp [List.map_cons, List.sum_cons, hx.1, ih hx.2]

theorem sum_ite_of_nodup (x : Int) (c : ℚ) (ds : List Int) (hnd : ds.Nodup)
    (hx : x ∈ ds) : (ds.map fun d => if x = d then c else 0).sum = c := by
  induction ds with
  | nil => cases hx
  | cons a t ih =>
    rcases List.mem_cons.1 hx with h | h
    · subst h
      have hnt : x ∉ t := (List.nodup_cons.1 hnd).1
      simp [sum_ite_of_notMem x c t hnt]
    · have hxa : x ≠ a := by rintro rfl; exact (List.nodup_cons.1 hnd).1 h
      simp [hxa, ih (List.nodup_cons.1 hnd).2 h]

/-- Summing a quantity fiberwise over a duplicate-free list of group labels
that covers every record gives the total sum. -/
theorem sum_fiber (g : SalesRecord → ℚ) (ds : List Int) (l : List SalesRecord)
    (hnd : ds.Nodup) (hcov : ∀ r ∈ l, r.orderDate ∈ ds) :
    (ds.map fun d => ((l.filter fun r => r.orderDate = d).map g).sum).sum
      = (l.map g).sum := by
  induction l with
  | nil => simp
  | cons a t ih =>
    have hstep :
        (ds.map fun d => (((a :: t).filter fun r => r.orderDate = d).map g).sum)
          = ds.map fun d => ((if a.orderDate = d then g a else 0) +
              ((t.filter fun r => r.orderDate = d).map g).sum) := by
      apply List.map_congr_left
      intro d _
      by_cases h : a.orderDate = d
      · simp [List.filter_cons, h]
      · simp [List.filter_cons, h]
    rw [hstep, sum_map_add]
    rw [sum_ite_of_nodup a.orderDate (g a) ds hnd (hcov a (List.mem_cons_self a t))]
    rw [ih (fun r hr => hcov r (List.mem_cons_of_mem a hr))]
    simp

/-- **C5.** The sum of `total_revenue` over the daily series equals the period
total (sum of `gross_amount` over the whole record set): the per-date
aggregation is a partition of the whole. -/
theorem C5_daily_series_partitions_period_total (records : List SalesRecord) :
    ((daily_totals records).map (·.totalRevenue)).sum = month_total records := by
  have hnd : ((((records.map (·.orderDate)).dedup).insertionSort (· ≤ ·))).Nodup :=
    ((List.perm_insertionSort _ _).nodup_iff).2 (List.nodup_dedup _)
  have hcov : ∀ r ∈ records,
      r.orderDate ∈ ((records.map (·.orderDate)).dedup).insertionSort (· ≤ ·) := by
    intro r hr
    rw [List.mem_insertionSort]
    exact List.mem_dedup.2 (List.mem_map_of_mem _ hr)
  have h := sum_fiber (·.grossAmount) _ records hnd hcov
  simpa [daily_totals, month_total, List.map_map, Function.comp] using h

/-- A product with last-day revenue 900, strictly above its daily average of
100: below the 1000 floor. -/
def r900 : GroupRow := ⟨"A", 900, 100, 3000, 1, 1, 30, 8⟩

/-- A product with last-day revenue exactly 1000, strictly above its daily
average of 100. -/
def r1000 : GroupRow := ⟨"B", 1000, 100, 3000, 1, 1, 30, 9⟩

/-- A two-row report exercising both sides of the 1000 floor. -/
def exPerfReport : List GroupRow := [r900, r1000]

/-- **C6.** A key is in the last-day-performers table iff its last-day revenue
is strictly greater than its daily average and at least 1000; the table is
sorted by growth ratio descending; a key with last-day revenue 900 above its
average is excluded and one with exactly 1000 above its average is
included. -/
theorem C6_last_day_performers_filter :
    (∀ (report : List GroupRow) (row : GroupRow),
        row ∈ performers_sorted report ↔
          row ∈ report ∧ row.dailyAvgRev < row.lastDayRev ∧ 1000 ≤ row.lastDayRev) ∧
      (∀ report : List GroupRow,
        List.Sorted (fun a b => b.growth ≤ a.growth) (performers_sorted report)) ∧
      performers_sorted exPerfReport = [r1000] := by
  refine ⟨?_, ?_, ?_⟩
  · intro report row
    simp [performers_sorted, List.mem_insertionSort, performers,
      List.mem_filter, and_assoc]
  · intro report
    letI : IsTotal GroupRow (fun a b => b.growth ≤ a.growth) :=
      ⟨fun a b => le_total b.growth a.growth⟩
    letI : IsTrans GroupRow (fun a b => b.growth ≤ a.growth) :=
      ⟨fun _ _ _ hab hbc => le_trans hbc hab⟩
    exact List.sorted_insertionSort _ _
  · norm_num [performers_sorted, performers, exPerfReport, r900, r1000,
      List.insertionSort, List.orderedInsert]

/-- Witness for C6: instantiating the membership characterization on the
concrete two-row report: `r900` is not a performer, `r1000` is. -/
theorem C6_last_day_performers_filter_witness :
    (r900 ∉ performers_sorted exPerfReport) ∧ r1000 ∈ performers_sorted exPerfReport := by
  constructor
  · intro hmem
    have h := (C6_last_day_performers_filter.1 exPerfReport r900).1 hmem
    have : (1000 : ℚ) ≤ 900 := h.2.2
    norm_num at this
  · refine (C6_last_day_performers_filter.1 exPerfReport r1000).2 ?_
    refine ⟨by simp [exPerfReport], ?_, ?_⟩ <;> norm_num [r1000]

/-- **C10.** Every grouping key occurring anywhere in the record set appears
as a row of the group report even if it has no transactions on the last day;
such a key's last-day revenue and quantity are 0 (defaulted, not missing), its
growth ratio is the substitution-rule ratio of 0 against its daily average,
hence −1 whenever its daily average revenue is positive. -/
theorem C10_absent_on_last_day_key_defaults
    (sel : SalesRecord → String) (records : List SalesRecord) (k : String)
    (hk : k ∈ records.map sel)
    (hlast : ∀ r ∈ records, sel r = k → r.orderDate ≠ last_date records) :
    ∃ row ∈ create_growth_report sel records, row.key = k ∧
      row.lastDayRev = 0 ∧ row.lastDayQty = 0 ∧
      row.growth = growthRatio 0 row.dailyAvgRev ∧
      (0 < row.dailyAvgRev → row.growth = -1) := by
  have hks : k ∈ sortedKeys sel records := by
    rw [sortedKeys, List.mem_insertionSort]
    exact List.mem_dedup.2 hk
  have hfil : (last_day_df records).filter (fun r => sel r = k) = [] := by
    simp only [List.filter_eq_nil_iff]
    intro r hr
    have hr' := List.mem_filter.1 hr
    have h1 : r ∈ records := hr'.1
    have h2 : r.orderDate = last_date records := by simpa using hr'.2
    simp only [decide_eq_true_eq]
    intro hsel
    exact hlast r h1 hsel h2
  have hrev : sumBy sel (·.grossAmount) k (last_day_df records) = 0 := by
    rw [sumBy]
    simp only [hfil]
    simp
  have hqty : sumBy sel (·.quantity) k (last_day_df records) = 0 := by
    rw [sumBy]
    simp only [hfil]
    simp
  simp only [create_growth_report]
  refine ⟨_, List.mem_map_of_mem _ hks, rfl, ?_, ?_, ?_, ?_⟩
  · exact hrev
  · exact hqty
  · simp [hrev]
  · intro h
    have hne : sumBy sel (·.grossAmount) k records / (num_days records : ℚ) ≠ 0 := by
      simp only at h
      exact ne_of_gt h
    simp only [hrev, growthRatio, if_neg hne, zero_sub, neg_div]
    rw [div_self hne]

/-- Product `A` sold only on day 0; product `B` sold on day 1, the last day. -/
def exC10records : List SalesRecord :=
  [⟨0, "A", "S", "C", 1, 100⟩, ⟨1, "B", "S", "C", 1, 200⟩]

/-- Witness for C10: product `A` of `exC10records` has no last-day
transactions yet gets a report row with zero last-day figures and growth
ratio −1 follows whenever its positive daily average is positive. -/
theorem C10_absent_on_last_day_key_defaults_witness :
    ∃ row ∈ create_growth_report byProduct exC10records, row.key = "A" ∧
      row.lastDayRev = 0 ∧ row.lastDayQty = 0 ∧
      row.growth = growthRatio 0 row.dailyAvgRev ∧
      (0 < row.dailyAvgRev → row.growth = -1) :=
  C10_absent_on_last_day_key_defaults byProduct exC10records "A" (by decide)
    (by decide)

/-! ### Normalization lemmas (shared helpers for the C4 claim) -/

theorem normalizeSales_cons (pd : String → Option Int) (pn : String → Option ℚ)
    (hq ha : Bool) (r : RawSalesRow) (t : List RawSalesRow) :
    normalizeSales pd pn hq ha (r :: t) =
      (match pd r.orderDateCell with
        | some d => [⟨d, r.productName, r.customerState, r.customerCity,
            if hq then (pn r.quantityCell).getD 0 else 0,
            if ha then (pn r.amountCell).getD 0 else 0⟩]
        | none => []) ++ normalizeSales pd pn hq ha t := by
  cases h : pd r.orderDateCell <;>
    simp [normalizeSales, coerceDates, dropBadDates, coerceNums, h]

theorem normalizeSales_drop_eq (pd : String → Option Int) (pn : String → Option ℚ)
    (hq ha : Bool) (rows : List RawSalesRow) :
    normalizeSales pd pn hq ha rows
      = normalizeSales pd pn hq ha (rows.filter fun r => (pd r.orderDateCell).isSome) := by
  induction rows with
  | nil => rfl
  | cons r t ih =>
    cases h : pd r.orderDateCell with
    | some d =>
      rw [List.filter_cons]
      rw [if_pos (by rw [h]; rfl)]
      rw [normalizeSales_cons, normalizeSales_cons, h, ih]
    | none =>
      rw [List.filter_cons]
      rw [if_neg (by rw [h]; simp)]
      rw [normalizeSales_cons, h, ih]
      simp

theorem normalizeSales_length (pd : String → Option Int) (pn : String → Option ℚ)
    (hq ha : Bool) (rows : List RawSalesRow) :
    (normalizeSales pd pn hq ha rows).length
      = (rows.filter fun r => (pd r.orderDateCell).isSome).length := by
  induction rows with
  | nil => rfl
  | cons r t ih =>
    rw [normalizeSales_cons, List.filter_cons]
    cases h : pd r.orderDateCell with
    | some d => simp [h, ih]
    | none => simp [h, ih]

theorem normalizeSales_keeps (pd : String → Option Int) (pn : String → Option ℚ)
    (hq ha : Bool) (rows : List RawSalesRow) :
    ∀ r ∈ rows, ∀ d, pd r.orderDateCell = some d →
      (⟨d, r.productName, r.customerState, r.customerCity,
        if hq then (pn r.quantityCell).getD 0 else 0,
        if ha then (pn r.amountCell).getD 0 else 0⟩ : SalesRecord)
        ∈ normalizeSales pd pn hq ha rows := by
  induction rows with
  | nil => intro r hr; cases hr
  | cons a t ih =>
    intro r hr d hd
    rw [normalizeSales_cons]
    rcases List.mem_cons.1 hr with h | h
    · subst h
      rw [hd]
      exact List.mem_append_left _ (List.mem_singleton_self _)
    · exact List.mem_append_right _ (ih r h d hd)

/-- **C4.** Normalization drops exactly the rows whose date fails parsing
(they contribute to no downstream aggregate, since the output list is
unchanged by removing them up front), while a row whose date parses is kept
even when its numeric fields fail coercion — those fields become 0; neither
failure aborts the run (the function is total). -/
theorem C4_date_failure_drops_numeric_failure_keeps
    (pd : String → Option Int) (pn : String → Option ℚ) (hq ha : Bool)
    (rows : List RawSalesRow) :
    (normalizeSales pd pn hq ha rows
        = normalizeSales pd pn hq ha
            (rows.filter fun r => (pd r.orderDateCell).isSome)) ∧
      ((normalizeSales pd pn hq ha rows).length
        = (rows.filter fun r => (pd r.orderDateCell).isSome).length) ∧
      (∀ r ∈ rows, ∀ d, pd r.orderDateCell = some d →
        (⟨d, r.productName, r.customerState, r.customerCity,
          if hq then (pn r.quantityCell).getD 0 else 0,
          if ha then (pn r.amountCell).getD 0 else 0⟩ : SalesRecord)
          ∈ normalizeSales pd pn hq ha rows) ∧
      (∀ r ∈ rows, ∀ d, pd r.orderDateCell = some d →
        pn r.quantityCell = none → pn r.amountCell = none →
        ∃ rec ∈ normalizeSales pd pn hq ha rows,
          rec.orderDate = d ∧ rec.productName = r.productName ∧
          rec.quantity = 0 ∧ rec.grossAmount = 0) := by
  refine ⟨normalizeSales_drop_eq pd pn hq ha rows,
    normalizeSales_length pd pn hq ha rows,
    normalizeSales_keeps pd pn hq ha rows, ?_⟩
  intro r hr d hd hnq hna
  refine ⟨_, normalizeSales_keeps pd pn hq ha rows r hr d hd, rfl, rfl, ?_, ?_⟩
  · rw [hnq]
    cases hq <;> simp
  · rw [hna]
    cases ha <;> simp

/-- A date parser recognizing exactly `2024-01-05` (as day number 4). -/
def pdEx : String → Option Int := fun s => if s = "2024-01-05" then some 4 else none

/-- A numeric parser recognizing exactly the string `7`. -/
def pnEx : String → Option ℚ := fun s => if s = "7" then some 7 else none

/-- Row 1 has a parsable date but unparsable numerics; row 2 has an
unparsable date. -/
def exRawRows : List RawSalesRow :=
  [⟨"2024-01-05", "P", "S", "C", "oops", "bad"⟩,
   ⟨"garbage", "Q", "S", "C", "7", "7"⟩]

/-- Witness for C4: on `exRawRows` the bad-date row is dropped (output length
1) while the bad-numerics row is kept with quantity and gross amount 0. -/
theorem C4_date_failure_drops_numeric_failure_keeps_witness :
    ((normalizeSales pdEx pnEx true true exRawRows).length
        = (exRawRows.filter fun r => (pdEx r.orderDateCell).isSome).length) ∧
      ∃ rec ∈ normalizeSales pdEx pnEx true true exRawRows,
        rec.orderDate = 4 ∧ rec.productName = "P" ∧
        rec.quantity = 0 ∧ rec.grossAmount = 0 := by
  refine ⟨(C4_date_failure_drops_numeric_failure_keeps pdEx pnEx true true
    exRawRows).2.1, ?_⟩
  refine (C4_date_failure_drops_numeric_failure_keeps pdEx pnEx true true
    exRawRows).2.2.2 ⟨"2024-01-05", "P", "S", "C", "oops", "bad"⟩ ?_ 4 ?_ ?_ ?_
  · simp [exRawRows]
  · simp [pdEx]
  · simp [pnEx]
  · simp [pnEx]

/-! ### C3: schema-location failure behaviour -/

/-- A sheet none of whose rows contains the sales schema columns. -/
def exNoHeader : RawSheet := [["foo", "bar"], ["baz", "qux"]]

/-- A sheet whose first row contains `Order Date` but no row anywhere contains
`Quantity`. -/
def exOrderDateOnly : RawSheet := [["Order Date", "foo"], ["1", "2"]]

/-- A workbook with no matching row in any sheet. -/
def exNoInvHeader : Workbook := [("Sheet1", [["a", "b"], ["c"]])]

/-- **C3, counterexample.**  The claim fails on the code in both directions:
(i) on `exNoHeader` — where no scanned row contains the required columns —
ingestion does not surface an error value reporting the sought columns; it
yields exactly the `None` default (`load_smart_sales_header exNoHeader =
none`); (ii) on `exOrderDateOnly` no row contains *all* required columns
(`Quantity` appears nowhere), yet ingestion succeeds rather than failing,
because `pd.read_excel`'s default header already contains `Order Date`. -/
theorem C3_counterexample :
    load_smart_sales_header exNoHeader = none ∧
      (∀ row ∈ exNoHeader.take 10,
        ¬((row.map trimStr).contains "Order Date" = true ∧
          (row.map trimStr).contains "Quantity" = true)) ∧
      (load_smart_sales_header exOrderDateOnly).isSome = true ∧
      (∀ row ∈ exOrderDateOnly.take 10,
        ¬((row.map trimStr).contains "Order Date" = true ∧
          (row.map trimStr).contains "Quantity" = true)) := by
  refine ⟨by decide, by decide, by decide, by decide⟩

theorem invScan_of_no_match (wb : Workbook) (t : Option String) (h : Nat)
    (hno : ∀ s ∈ wb, findInvHeaderRow s.2 = none) :
    invScan wb t h = (t, h) := by
  induction wb generalizing t h with
  | nil => rfl
  | cons s rest ih =>
    have hs : findInvHeaderRow s.2 = none := hno s (List.mem_cons_self s rest)
    cases s with
    | mk name m =>
      have hstep : invScan ((name, m) :: rest) t h
          = match findInvHeaderRow m with
            | some i => if name = "" then invScan rest (some name) i else (some name, i)
            | none => invScan rest t h := rfl
      rw [hstep]
      simp only at hs
      rw [hs]
      exact ih t h (fun x hx => hno x (List.mem_cons_of_mem _ hx))

/-- **C3, amended.**  When schema location fails, each loader returns `None` —
terminal for that input, with no partial result — rather than raising a typed
`SchemaNotFoundError`; the `None` carries no record of which columns were
sought.  For the sales loader the failure hypothesis must additionally assume
`Order Date` is not among the row-0 columns, because `pd.read_excel`'s default
header short-circuits the scan without ever checking for `Quantity`. -/
theorem C3_schema_failure_returns_none :
    (∀ m : RawSheet, "Order Date" ∉ rowAt m 0 →
      (∀ row ∈ m.take 10,
        ¬((row.map trimStr).contains "Order Date" = true ∧
          (row.map trimStr).contains "Quantity" = true)) →
      load_smart_sales_header m = none) ∧
    (∀ wb : Workbook,
      (∀ s ∈ wb, ∀ row ∈ s.2.take 10,
        ¬((row.map trimStr).contains "Item Name" = true ∧
          (row.map trimStr).contains "Total sellable" = true)) →
      load_smart_inventory_header wb = none) := by
  constructor
  · intro m h0 hno
    rw [load_smart_sales_header]
    rw [if_neg (by simpa using h0)]
    have h2 : findSalesHeaderRow m = none := by
      rw [findSalesHeaderRow, List.findIdx?_eq_none_iff]
      intro row hrow
      have h := hno row hrow
      cases hx : (row.map trimStr).contains "Order Date" with
      | false => simp [hx]
      | true =>
        cases hy : (row.map trimStr).contains "Quantity" with
        | false => simp [hx, hy]
        | true => exact absurd ⟨hx, hy⟩ h
    rw [h2]
  · intro wb hno
    have hsheets : ∀ s ∈ wb, findInvHeaderRow s.2 = none := by
      intro s hs
      rw [findInvHeaderRow, List.findIdx?_eq_none_iff]
      intro row hrow
      have h := hno s hs row hrow
      cases hx : (row.map trimStr).contains "Item Name" with
      | false => simp [hx]
      | true =>
        cases hy : (row.map trimStr).contains "Total sellable" with
        | false => simp [hx, hy]
        | true => exact absurd ⟨hx, hy⟩ h
    rw [load_smart_inventory_header, invScan_of_no_match wb none 0 hsheets]

/-- Witness for the amended C3: both loaders return `None` on the concrete
schema-less inputs. -/
theorem C3_schema_failure_returns_none_witness :
    load_smart_sales_header exNoHeader = none ∧
      load_smart_inventory_header exNoInvHeader = none :=
  ⟨C3_schema_failure_returns_none.1 exNoHeader (by decide) (by decide),
    C3_schema_failure_returns_none.2 exNoInvHeader (by decide)⟩

/-- A two-day daily series: Monday (day 0) revenue 10, Tuesday (day 1)
revenue 20. -/
def exDaily : List DailyRow := [⟨0, 10, 1⟩, ⟨1, 20, 2⟩]

/-- **C7, counterexample.**  The claim "no numeric value in any output table
is non-finite" is false on the code: the `Weekly Patterns` sheet is an output
table, and `reindex(days_order)` (line 323) inserts a NaN-average row for
every weekday absent from the data.  Concretely, `exDaily` covers only Monday
and Tuesday, the analysis completes, and the emitted weekly table's Wednesday
row carries NaN (modelled as `none`) for both its average revenue and average
quantity. -/
theorem C7_counterexample :
    (weekly_stats exDaily "Tuesday" 99)[2]?
      = some ⟨"Wednesday", none, none, 0⟩ := by decide

/-- **C7, amended.**  The non-finiteness guarantee holds for the growth
computation feeding the group and comparison tables, but does not extend to
the `Weekly Patterns` table (whose `reindex` inserts NaN averages for absent
weekdays, see `C7_counterexample`): on finite operands the `Growth %` formula
— the only division in the pipeline, shared by `create_growth_report` and
`generate_comparison` — yields the finite substitution-rule value written
into those tables (`growthRatio`); the `replace(0, 1)` denominator is never
0, so the division-by-zero case never arises; and the final
`replace([inf, -inf], 0)` clamps any ±infinity to 0. -/
theorem C7_no_nonfinite_values :
    (∀ lastq avgq : ℚ,
      growthFormula (PVal.fin lastq) (PVal.fin avgq)
        = PVal.fin ((lastq - avgq) / (if avgq = 0 then 1 else avgq))) ∧
      (∀ lastq avgq : ℚ,
        growthFormula (PVal.fin lastq) (PVal.fin avgq)
          = PVal.fin (growthRatio lastq avgq)) ∧
      (∀ lastq avgq : ℚ,
        (growthFormula (PVal.fin lastq) (PVal.fin avgq)).isFinite) ∧
      PVal.replaceInfWithZero PVal.pinf = PVal.fin 0 ∧
      PVal.replaceInfWithZero PVal.ninf = PVal.fin 0 ∧
      (∀ avgq : ℚ, PVal.replaceZeroWithOne (PVal.fin avgq) ≠ PVal.fin 0) := by
  have hmain : ∀ lastq avgq : ℚ,
      growthFormula (PVal.fin lastq) (PVal.fin avgq)
        = PVal.fin ((lastq - avgq) / (if avgq = 0 then 1 else avgq)) := by
    intro lastq avgq
    by_cases h : avgq = 0
    · simp [growthFormula, PVal.sub, PVal.div, PVal.replaceZeroWithOne,
        PVal.replaceInfWithZero, h]
    · simp [growthFormula, PVal.sub, PVal.div, PVal.replaceZeroWithOne,
        PVal.replaceInfWithZero, h]
  refine ⟨hmain, fun l a => ?_, fun l a => ?_, by simp [PVal.replaceInfWithZero],
    by simp [PVal.replaceInfWithZero], fun avgq => ?_⟩
  · rw [hmain l a]
    rfl
  · rw [hmain l a]
    trivial
  · by_cases h : avgq = 0 <;> simp [PVal.replaceZeroWithOne, h]

/-- Helper: an element read by index is a member of the list. -/
theorem mem_of_getElemOpt {α : Type} {l : List α} {i : Nat} {a : α}
    (h : l[i]? = some a) : a ∈ l := by
  induction l generalizing i with
  | nil => simp at h
  | cons x t ih =>
    cases i with
    | zero =>
      simp only [List.getElem?_cons_zero, Option.some.injEq] at h
      exact h ▸ List.mem_cons_self x t
    | succ j =>
      rw [List.getElem?_cons_succ] at h
      exact List.mem_cons_of_mem x (ih h)

/-- The rows of the pre-overlay weekly table are labelled Monday→Sunday. -/
theorem weekly_pre_days (daily : List DailyRow) :
    (weekly_pre daily).map (·.day) = days_order := rfl

/-- **C8.** The last-day overlay touches only the `Last Day Rev` slot of the
single weekday row matching the last day's name: position by position, the
final weekly table equals the pre-overlay table except that the matching
row's `lastDayRev` becomes the literal last-day revenue; the weekday labels
(Monday→Sunday, duplicate-free, so the matching row is unique) and every
row's historical average revenue and quantity are unchanged. -/
theorem C8_weekly_overlay_frame (daily : List DailyRow) (lastName : String)
    (lastRev : ℚ) :
    ((weekly_stats daily lastName lastRev).map (·.day) = days_order) ∧
      days_order.Nodup ∧
      (∀ (i : Nat) (r0 : WeeklyRow), (weekly_pre daily)[i]? = some r0 →
        (weekly_stats daily lastName lastRev)[i]?
          = some (if r0.day = lastName then { r0 with lastDayRev := lastRev } else r0)) ∧
      (∀ r ∈ weekly_stats daily lastName lastRev, r.day = lastName →
        r.lastDayRev = lastRev) := by
  have hupd : ∀ r : WeeklyRow,
      ((if r.day = lastName then { r with lastDayRev := lastRev } else r) : WeeklyRow).day
        = r.day := by
    intro r
    split <;> rfl
  refine ⟨?_, by decide, ?_, ?_⟩
  · rw [weekly_stats, overlayLast]
    split
    · rw [List.map_map]
      have h : ∀ r ∈ weekly_pre daily,
          (((fun x : WeeklyRow => x.day) ∘ fun r : WeeklyRow =>
            if r.day = lastName then { r with lastDayRev := lastRev } else r) r)
            = r.day := by
        intro r _
        simp only [Function.comp_apply]
        exact hupd r
      rw [List.map_congr_left h]
      exact weekly_pre_days daily
    · exact weekly_pre_days daily
  · intro i r0 h0
    rw [weekly_stats, overlayLast]
    split
    · rw [List.getElem?_map, h0]
      rfl
    · rename_i hc
      have hmem : r0 ∈ weekly_pre daily := mem_of_getElemOpt h0
      have hday : r0.day ≠ lastName := by
        intro hEq
        apply hc
        have hm : lastName ∈ (weekly_pre daily).map (·.day) := by
          rw [← hEq]
          exact List.mem_map_of_mem _ hmem
        simpa using hm
      rw [h0, if_neg hday]
  · intro r hr hday
    rw [weekly_stats, overlayLast] at hr
    by_cases hc : ((weekly_pre daily).map (·.day)).contains lastName
    · rw [if_pos hc] at hr
      obtain ⟨r0, hr0, rfl⟩ := List.mem_map.1 hr
      by_cases h0 : r0.day = lastName
      · rw [if_pos h0]
      · rw [if_neg h0] at hday ⊢
        exact absurd hday h0
    · rw [if_neg hc] at hr
      exfalso
      apply hc
      have hm : lastName ∈ (weekly_pre daily).map (·.day) := by
        rw [← hday]
        exact List.mem_map_of_mem _ hr
      simpa using hm

/-- Witness for C8: on `exDaily`, overlaying Tuesday's last-day revenue 99
rewrites only the `lastDayRev` slot of the Tuesday row (index 1); its
averages stay at their historical values. -/
theorem C8_weekly_overlay_frame_witness :
    (weekly_pre exDaily)[1]? = some ⟨"Tuesday", some 20, some 2, 0⟩ ∧
      (weekly_stats exDaily "Tuesday" 99)[1]?
        = some (if ("Tuesday" : String) = "Tuesday"
            then { (⟨"Tuesday", some 20, some 2, 0⟩ : WeeklyRow) with lastDayRev := 99 }
            else ⟨"Tuesday", some 20, some 2, 0⟩) := by
  have hd0 : dayName 0 = "Monday" := rfl
  have hd1 : dayName 1 = "Tuesday" := rfl
  have hne : ("Monday" : String) ≠ "Tuesday" := by decide
  have h0 : (weekly_pre exDaily)[1]? = some ⟨"Tuesday", some 20, some 2, 0⟩ := by
    norm_num [weekly_pre, meanList, exDaily, hd0, hd1, hne, days_order,
      List.filter_cons, List.filter_nil]
  exact ⟨h0, (C8_weekly_overlay_frame exDaily "Tuesday" 99).2.2.1 1 _ h0⟩

/-- A key with no records sums over an empty fiber, i.e. to 0 — exactly the
`fillna(0)` value the outer join assigns to the missing side. -/
theorem sumBy_eq_zero_of_not_mem (sel : SalesRecord → String) (f : SalesRecord → ℚ)
    (k : String) (records : List SalesRecord) (hk : k ∉ records.map sel) :
    sumBy sel f k records = 0 := by
  rw [sumBy]
  have hnil : records.filter (fun r => sel r = k) = [] := by
    simp only [List.filter_eq_nil_iff]
    intro r hr
    simp only [decide_eq_true_eq]
    intro hsel
    exact hk (hsel ▸ List.mem_map_of_mem sel hr)
  rw [hnil]
  simp

/-- **C9.** The period-over-period comparison is an outer join on the grouping
key: every key of either period gets a row; a key missing from one period
shows 0 for that side's daily averages; and its revenue growth ratio is still
the defined substitution-rule ratio (zero denominators replaced by 1), so in
particular a key present only in the previous period appears with
`curr_daily_avg_revenue = 0` and a finite ratio. -/
theorem C9_comparison_outer_join (sel : SalesRecord → String)
    (prev curr : List SalesRecord) (k : String)
    (hk : k ∈ prev.map sel ∨ k ∈ curr.map sel) :
    ∃ row ∈ generate_comparison sel prev curr, row.key = k ∧
      (k ∉ curr.map sel → row.currAvgRev = 0 ∧ row.currAvgQty = 0) ∧
      (k ∉ prev.map sel → row.prevAvgRev = 0 ∧ row.prevAvgQty = 0) ∧
      row.revGrowth = (row.currAvgRev - row.prevAvgRev) /
        (if row.prevAvgRev = 0 then 1 else row.prevAvgRev) := by
  have hkeys : k ∈ ((prev.map sel ++ curr.map sel).dedup).insertionSort (· ≤ ·) := by
    rw [List.mem_insertionSort]
    exact List.mem_dedup.2 (List.mem_append.2 hk)
  simp only [generate_comparison]
  refine ⟨_, (List.mem_insertionSort _).2 (List.mem_map_of_mem _ hkeys),
    rfl, ?_, ?_, ?_⟩
  · intro hnc
    constructor <;>
      simp [sumBy_eq_zero_of_not_mem sel _ k curr hnc]
  · intro hnp
    constructor <;>
      simp [sumBy_eq_zero_of_not_mem sel _ k prev hnp]
  · simp [growthRatio]

/-- Previous period: only product `A` sold. -/
def exPrevRecords : List SalesRecord := [⟨0, "A", "S", "C", 1, 100⟩]

/-- Current period: only product `B` sold. -/
def exCurrRecords : List SalesRecord := [⟨0, "B", "S", "C", 1, 50⟩]

/-- Witness for C9: product `A`, present only in the previous period, still
gets a comparison row, with zero current-side averages and a defined growth
ratio. -/
theorem C9_comparison_outer_join_witness :
    ∃ row ∈ generate_comparison byProduct exPrevRecords exCurrRecords,
      row.key = "A" ∧
      ("A" ∉ exCurrRecords.map byProduct → row.currAvgRev = 0 ∧ row.currAvgQty = 0) ∧
      ("A" ∉ exPrevRecords.map byProduct → row.prevAvgRev = 0 ∧ row.prevAvgQty = 0) ∧
      row.revGrowth = (row.currAvgRev - row.prevAvgRev) /
        (if row.prevAvgRev = 0 then 1 else row.prevAvgRev) :=
  C9_comparison_outer_join byProduct exPrevRecords exCurrRecords "A"
    (Or.inl (by decide))

end Blinkit
